import Mathlib

/-!
Shallow embedding of the intel_backlight-cli brightness program
(src/brightness.c).  The brightness store and the pacing clock are
modelled by an environment of observable I/O results; machine `int`
values are modelled by `Int` (all values involved are tiny), and the
C `double` constant `fade_step = 0.1` together with `round` is
modelled over `Rat` with round-half-away-from-zero, which agrees with
IEEE double evaluation on the whole admitted range of deltas.
The fade loop of `FadeTo` is embedded with explicit fuel: an outcome
of `none` means the loop has not terminated within the given fuel.
-/

/-- Configured fade step fraction (src/brightness.c line 118). -/
def fade_step : ℚ := 1 / 10

/-- Configured fade interval in milliseconds (src/brightness.c line 125). -/
def fade_time : ℤ := 170

/-- Configured lower brightness limit (src/brightness.c line 134). -/
def lower_limit : ℤ := 1

/-- The errno value EINTR on Linux, compared against by the fade loop. -/
def EINTR : ℤ := 4

/-- Observable results of the I/O calls made by one run of the program:
whether fopen of the brightness file succeeds, the setvbuf result, the
result of the n-th fprintf call, the result of the n-th nanosleep call,
and the fclose result. -/
structure FadeEnv where
  openOk : Bool
  vbufResult : ℤ
  writeResult : ℕ → ℤ
  sleepResult : ℕ → ℤ
  closeResult : ℤ

/-- C round() on rationals: round half away from zero. -/
def roundQ (q : ℚ) : ℤ :=
  if 0 ≤ q then ⌊q + 1 / 2⌋ else ⌈q - 1 / 2⌉

/-- The step computed by FadeTo (src/brightness.c lines 270-271):
sign of the change when the fade step fraction is zero, otherwise
round(change * fade_step). -/
def stepOf (fs : ℚ) (change : ℤ) : ℤ :=
  if fs = 0 then (if change < 0 then -1 else 1) else roundQ ((change : ℚ) * fs)

/-- SetTo (src/brightness.c lines 200-224): write one value to the store.
Returns the list of values actually written and the C return value. -/
def SetTo (env : FadeEnv) (target : ℤ) : List ℤ × Option ℤ :=
  if env.openOk = false then ([], some (-1))
  else
    ((if env.writeResult 0 < 0 then [] else [target]),
     some (if env.closeResult < 0 ∧ -1 < env.writeResult 0 then env.closeResult
           else env.writeResult 0))

/-- The ascending fade loop of FadeTo (src/brightness.c lines 283-305),
with fuel.  Arguments after the target and step: remaining fuel, the
running current value, the index of the next fprintf, the index of the
next nanosleep, and the running rval variable.  Returns the values
written and `some (rval, chars)` at loop exit, or `none` if the loop is
still running when the fuel runs out.  The rval update embeds the C
expression `rval = nanosleep(&ts, NULL) && rval` literally, including
its operator precedence. -/
def loopPos (env : FadeEnv) (t st : ℤ) :
    ℕ → ℤ → ℕ → ℕ → ℤ → List ℤ × Option (ℤ × ℤ)
  | 0, _, _, _, _ => ([], none)
  | fuel + 1, cur, w, s, rv =>
    let cur' := cur + st
    if t ≤ cur' then
      (if env.writeResult w < 0 then ([], some (-2, env.writeResult w))
       else ([t], some (0, env.writeResult w)))
    else if env.writeResult w < 0 then ([], some (-2, 1))
    else
      let rv' : ℤ := if env.sleepResult s ≠ 0 ∧ rv ≠ 0 then 1 else 0
      if rv' ≠ 0 ∧ rv' ≠ EINTR then ([cur'], some (-3, 0))
      else
        let r := loopPos env t st fuel cur' (w + 1) (s + 1) rv'
        (cur' :: r.1, r.2)

/-- The descending fade loop of FadeTo (src/brightness.c lines 306-328). -/
def loopNeg (env : FadeEnv) (t st : ℤ) :
    ℕ → ℤ → ℕ → ℕ → ℤ → List ℤ × Option (ℤ × ℤ)
  | 0, _, _, _, _ => ([], none)
  | fuel + 1, cur, w, s, rv =>
    let cur' := cur + st
    if cur' ≤ t then
      (if env.writeResult w < 0 then ([], some (-2, env.writeResult w))
       else ([t], some (0, env.writeResult w)))
    else if env.writeResult w < 0 then ([], some (-2, 1))
    else
      let rv' : ℤ := if env.sleepResult s ≠ 0 ∧ rv ≠ 0 then 1 else 0
      if rv' ≠ 0 ∧ rv' ≠ EINTR then ([cur'], some (-3, 0))
      else
        let r := loopNeg env t st fuel cur' (w + 1) (s + 1) rv'
        (cur' :: r.1, r.2)

/-- The epilogue of FadeTo (src/brightness.c lines 329-333): on loop
exit, fold in the fclose result and compute the C return value. -/
def finishFade (env : FadeEnv) : List ℤ × Option (ℤ × ℤ) → List ℤ × Option ℤ
  | (tr, none) => (tr, none)
  | (tr, some (rv, ch)) =>
    let rv' := if -1 < rv then env.closeResult else rv
    (tr, some (if rv' < 0 ∧ -1 < ch then rv' else ch))

/-- FadeTo (src/brightness.c lines 226-335), parametric in the two
configuration constants.  Returns the list of values written to the
brightness store, and `some r` for C return value r, or `none` when
the stepping loop did not terminate within the fuel. -/
def FadeTo (ft : ℤ) (fs : ℚ) (env : FadeEnv) (fuel : ℕ)
    (current change : ℤ) : List ℤ × Option ℤ :=
  if change = 0 then ([], some 0)
  else
    if current + change < 1 ∨ 852 < current + change then ([], some 0)
    else if ft < 1 ∨ 999 < ft ∨ fs < 0 ∨ 1 / 2 < fs then
      SetTo env (current + change)
    else if env.openOk = false then ([], some (-1))
    else if env.vbufResult ≠ 0 then ([], some (-2))
    else
      finishFade env
        (if 0 < change then
          loopPos env (current + change) (stepOf fs change) fuel current 0 0 0
         else
          loopNeg env (current + change) (stepOf fs change) fuel current 0 0 0)

/-- The inline bounds clamp of main (src/brightness.c lines 628-637):
add the change, then clamp below to the lower limit (or to 0 on a
toggle-off) and above to the maximum, with an else-if between the two
comparisons exactly as in the source. -/
def clampBrightness (current maxB lower delta : ℤ) (toggleoff : Bool) : ℤ :=
  let b := current + delta
  if b < lower then (if toggleoff then 0 else lower)
  else if maxB < b then maxB
  else b

/-- The toggle path of main (src/brightness.c lines 587-606, 628-637 and
687-692): choose the raw change and the toggleoff flag from the current
brightness, the cached value and the result of saving to the cache,
clamp, and invoke FadeTo on the effective change if it is nonzero or
verbose output was requested.  Returns the effective change together
with the FadeTo (or no-op) result.  Assumes the store is writable. -/
def runToggle (env : FadeEnv) (fuel : ℕ)
    (brightness maxB cacheRead saveResult : ℤ) (verbose : Bool) :
    ℤ × (List ℤ × Option ℤ) :=
  let p : ℤ × Bool :=
    if brightness = 0 then ((if cacheRead < 1 then 1 else cacheRead), false)
    else if 0 < saveResult then (-brightness, true)
    else (0, false)
  let newB := clampBrightness brightness maxB lower_limit p.1 p.2
  let change := newB - brightness
  (change,
   if change ≠ 0 ∨ verbose = true then FadeTo fade_time fade_step env fuel brightness change
   else ([], some 0))

/-- An environment in which every I/O call succeeds: fopen succeeds,
setvbuf returns 0, every fprintf reports 4 characters written, every
nanosleep returns 0, and fclose returns 0. -/
def envOK : FadeEnv :=
  { openOk := true, vbufResult := 0, writeResult := fun _ => 4,
    sleepResult := fun _ => 0, closeResult := 0 }

/-- An environment in which every nanosleep call fails (returns -1, a
non-EINTR failure) while all file operations succeed. -/
def envSleepFail : FadeEnv :=
  { openOk := true, vbufResult := 0, writeResult := fun _ => 8,
    sleepResult := fun _ => -1, closeResult := 0 }

/-- The step computed for the repository's configured fade fraction and a
delta of 4 is zero: round(4 * 0.1) = 0. -/
lemma stepOf_four : stepOf (1 / 10) 4 = 0 := by norm_num [stepOf, roundQ]

/-- The step computed for the configured fade fraction and delta -1. -/
lemma stepOf_neg_one : stepOf (1 / 10) (-1) = 0 := by norm_num [stepOf, roundQ]

/-- The step computed for the configured fade fraction and delta 50. -/
lemma stepOf_fifty : stepOf (1 / 10) 50 = 5 := by norm_num [stepOf, roundQ]

/-- The trace of a fade never changes under the return-value epilogue. -/
lemma finishFade_fst (env : FadeEnv) (p : List ℤ × Option (ℤ × ℤ)) :
    (finishFade env p).1 = p.1 := by
  rcases p with ⟨tr, op⟩
  rcases op with _ | ⟨rv, ch⟩ <;> simp [finishFade]

/-- Every value written by the ascending loop with a positive step lies
strictly above the entry value and does not exceed the target. -/
lemma loopPos_bounds (env : FadeEnv) (t st : ℤ) (hst : 1 ≤ st) :
    ∀ fuel : ℕ, ∀ cur : ℤ, ∀ w s : ℕ, ∀ rv : ℤ, cur < t →
      ∀ x ∈ (loopPos env t st fuel cur w s rv).1, cur < x ∧ x ≤ t := by
  intro fuel
  induction fuel with
  | zero => intro cur w s rv hc x hx; simp [loopPos] at hx
  | succ n ih =>
    intro cur w s rv hc x hx
    by_cases h1 : t ≤ cur + st
    · by_cases h2 : env.writeResult w < 0
      · simp [loopPos, h1, h2] at hx
      · simp [loopPos, h1, h2] at hx
        subst hx
        omega
    · by_cases h2 : env.writeResult w < 0
      · simp [loopPos, h1, h2] at hx
      · by_cases h3 : env.sleepResult s ≠ 0 ∧ rv ≠ 0
        · norm_num [loopPos, h1, h2, h3, EINTR] at hx
          subst hx
          omega
        · norm_num [loopPos, h1, h2, h3] at hx
          rcases hx with rfl | hmem
          · omega
          · have hb := ih (cur + st) (w + 1) (s + 1) 0 (by omega) x hmem
            exact ⟨by omega, hb.2⟩

/-- Every value written by the descending loop with a negative step lies
strictly below the entry value and not below the target. -/
lemma loopNeg_bounds (env : FadeEnv) (t st : ℤ) (hst : st ≤ -1) :
    ∀ fuel : ℕ, ∀ cur : ℤ, ∀ w s : ℕ, ∀ rv : ℤ, t < cur →
      ∀ x ∈ (loopNeg env t st fuel cur w s rv).1, x < cur ∧ t ≤ x := by
  intro fuel
  induction fuel with
  | zero => intro cur w s rv hc x hx; simp [loopNeg] at hx
  | succ n ih =>
    intro cur w s rv hc x hx
    by_cases h1 : cur + st ≤ t
    · by_cases h2 : env.writeResult w < 0
      · simp [loopNeg, h1, h2] at hx
      · simp [loopNeg, h1, h2] at hx
        subst hx
        omega
    · by_cases h2 : env.writeResult w < 0
      · simp [loopNeg, h1, h2] at hx
      · by_cases h3 : env.sleepResult s ≠ 0 ∧ rv ≠ 0
        · norm_num [loopNeg, h1, h2, h3, EINTR] at hx
          subst hx
          omega
        · norm_num [loopNeg, h1, h2, h3] at hx
          rcases hx with rfl | hmem
          · omega
          · have hb := ih (cur + st) (w + 1) (s + 1) 0 (by omega) x hmem
            exact ⟨by omega, hb.2⟩

/-- The values written by the ascending loop with a positive step form a
strictly increasing sequence. -/
lemma loopPos_sorted (env : FadeEnv) (t st : ℤ) (hst : 1 ≤ st) :
    ∀ fuel : ℕ, ∀ cur : ℤ, ∀ w s : ℕ, ∀ rv : ℤ, cur < t →
      List.Pairwise (· < ·) (loopPos env t st fuel cur w s rv).1 := by
  intro fuel
  induction fuel with
  | zero => intro cur w s rv hc; simp [loopPos]
  | succ n ih =>
    intro cur w s rv hc
    by_cases h1 : t ≤ cur + st
    · by_cases h2 : env.writeResult w < 0
      · simp [loopPos, h1, h2]
      · simp [loopPos, h1, h2]
    · by_cases h2 : env.writeResult w < 0
      · simp [loopPos, h1, h2]
      · by_cases h3 : env.sleepResult s ≠ 0 ∧ rv ≠ 0
        · norm_num [loopPos, h1, h2, h3, EINTR]
        · norm_num [loopPos, h1, h2, h3]
          refine ⟨?_, ih (cur + st) (w + 1) (s + 1) 0 (by omega)⟩
          intro b hb
          exact (loopPos_bounds env t st hst n (cur + st) (w + 1) (s + 1) 0
            (by omega) b hb).1

/-- The values written by the descending loop with a negative step form a
strictly decreasing sequence. -/
lemma loopNeg_sorted (env : FadeEnv) (t st : ℤ) (hst : st ≤ -1) :
    ∀ fuel : ℕ, ∀ cur : ℤ, ∀ w s : ℕ, ∀ rv : ℤ, t < cur →
      List.Pairwise (· > ·) (loopNeg env t st fuel cur w s rv).1 := by
  intro fuel
  induction fuel with
  | zero => intro cur w s rv hc; simp [loopNeg]
  | succ n ih =>
    intro cur w s rv hc
    by_cases h1 : cur + st ≤ t
    · by_cases h2 : env.writeResult w < 0
      · simp [loopNeg, h1, h2]
      · simp [loopNeg, h1, h2]
    · by_cases h2 : env.writeResult w < 0
      · simp [loopNeg, h1, h2]
      · by_cases h3 : env.sleepResult s ≠ 0 ∧ rv ≠ 0
        · norm_num [loopNeg, h1, h2, h3, EINTR]
        · norm_num [loopNeg, h1, h2, h3]
          refine ⟨?_, ih (cur + st) (w + 1) (s + 1) 0 (by omega)⟩
          intro b hb
          exact (loopNeg_bounds env t st hst n (cur + st) (w + 1) (s + 1) 0
            (by omega) b hb).1

/-- If the ascending loop exits with a nonnegative rval, the final write
succeeded and placed exactly the target at the end of the trace. -/
lemma loopPos_success (env : FadeEnv) (t st : ℤ) :
    ∀ fuel : ℕ, ∀ cur : ℤ, ∀ w s : ℕ, ∀ rv rv2 ch : ℤ,
      (loopPos env t st fuel cur w s rv).2 = some (rv2, ch) → 0 ≤ rv2 →
      ∃ pre, (loopPos env t st fuel cur w s rv).1 = pre ++ [t] := by
  intro fuel
  induction fuel with
  | zero => intro cur w s rv rv2 ch h _; simp [loopPos] at h
  | succ n ih =>
    intro cur w s rv rv2 ch h hr
    by_cases h1 : t ≤ cur + st
    · by_cases h2 : env.writeResult w < 0
      · simp [loopPos, h1, h2] at h
        omega
      · exact ⟨[], by simp [loopPos, h1, h2]⟩
    · by_cases h2 : env.writeResult w < 0
      · simp [loopPos, h1, h2] at h
        omega
      · by_cases h3 : env.sleepResult s ≠ 0 ∧ rv ≠ 0
        · norm_num [loopPos, h1, h2, h3, EINTR] at h
          omega
        · norm_num [loopPos, h1, h2, h3] at h
          obtain ⟨pre, hpre⟩ := ih (cur + st) (w + 1) (s + 1) 0 rv2 ch h hr
          refine ⟨(cur + st) :: pre, ?_⟩
          norm_num [loopPos, h1, h2, h3, hpre]

/-- If the descending loop exits with a nonnegative rval, the final write
succeeded and placed exactly the target at the end of the trace. -/
lemma loopNeg_success (env : FadeEnv) (t st : ℤ) :
    ∀ fuel : ℕ, ∀ cur : ℤ, ∀ w s : ℕ, ∀ rv rv2 ch : ℤ,
      (loopNeg env t st fuel cur w s rv).2 = some (rv2, ch) → 0 ≤ rv2 →
      ∃ pre, (loopNeg env t st fuel cur w s rv).1 = pre ++ [t] := by
  intro fuel
  induction fuel with
  | zero => intro cur w s rv rv2 ch h _; simp [loopNeg] at h
  | succ n ih =>
    intro cur w s rv rv2 ch h hr
    by_cases h1 : cur + st ≤ t
    · by_cases h2 : env.writeResult w < 0
      · simp [loopNeg, h1, h2] at h
        omega
      · exact ⟨[], by simp [loopNeg, h1, h2]⟩
    · by_cases h2 : env.writeResult w < 0
      · simp [loopNeg, h1, h2] at h
        omega
      · by_cases h3 : env.sleepResult s ≠ 0 ∧ rv ≠ 0
        · norm_num [loopNeg, h1, h2, h3, EINTR] at h
          omega
        · norm_num [loopNeg, h1, h2, h3] at h
          obtain ⟨pre, hpre⟩ := ih (cur + st) (w + 1) (s + 1) 0 rv2 ch h hr
          refine ⟨(cur + st) :: pre, ?_⟩
          norm_num [loopNeg, h1, h2, h3, hpre]

/-- With a zero step, successful writes and a current value above the
target, the descending loop never exits: it keeps rewriting the same
value forever (the fuel always runs out). -/
lemma loopNeg_zero_stuck (env : FadeEnv) (t : ℤ)
    (hw : ∀ n, 0 ≤ env.writeResult n) :
    ∀ fuel : ℕ, ∀ cur : ℤ, ∀ w s : ℕ, t < cur →
      (loopNeg env t 0 fuel cur w s 0).2 = none ∧
      ∀ x ∈ (loopNeg env t 0 fuel cur w s 0).1, x = cur := by
  intro fuel
  induction fuel with
  | zero => intro cur w s hc; simp [loopNeg]
  | succ n ih =>
    intro cur w s hc
    have h1 : ¬(cur ≤ t) := by omega
    have h2 : ¬(env.writeResult w < 0) := by
      have := hw w
      omega
    have hrec := ih cur (w + 1) (s + 1) hc
    norm_num [loopNeg, h1, h2]
    exact ⟨hrec.1, fun x hx => hrec.2 x hx⟩

/-- The epilogue keeps the trace and the fuel-exhaustion marker on a
loop result that ran out of fuel. -/
lemma finishFade_none (env : FadeEnv) (p : List ℤ × Option (ℤ × ℤ))
    (h : p.2 = none) : finishFade env p = (p.1, none) := by
  rcases p with ⟨tp, op⟩
  cases op with
  | none => rfl
  | some v => simp at h

/-- A nonnegative return value out of the epilogue means the loop exited
with a nonnegative rval, and the returned value is the chars value of the
loop exit; the trace is the loop trace. -/
lemma finishFade_success (env : FadeEnv) (p : List ℤ × Option (ℤ × ℤ))
    (tr : List ℤ) (r : ℤ) (h : finishFade env p = (tr, some r)) (hr : 0 ≤ r) :
    tr = p.1 ∧ ∃ rv2, p.2 = some (rv2, r) ∧ 0 ≤ rv2 := by
  rcases p with ⟨tp, op⟩
  rcases op with _ | ⟨rv, ch⟩
  · simp [finishFade] at h
  · simp only [finishFade] at h
    injection h with ha hb
    injection hb with hb
    by_cases hc : (-1 : ℤ) < rv
    · rw [if_pos hc] at hb
      by_cases hif : env.closeResult < 0 ∧ -1 < ch
      · rw [if_pos hif] at hb
        omega
      · rw [if_neg hif] at hb
        exact ⟨ha.symm, rv, by rw [hb], by omega⟩
    · rw [if_neg hc] at hb
      by_cases hif : rv < 0 ∧ -1 < ch
      · rw [if_pos hif] at hb
        omega
      · have hch : ¬(-1 < ch) := fun hch => hif ⟨by omega, hch⟩
        rw [if_neg hif] at hb
        omega

/-- A successful SetTo with a nonempty trace wrote exactly its target. -/
lemma SetTo_success (env : FadeEnv) (v : ℤ) (tr : List ℤ) (r : ℤ)
    (h : SetTo env v = (tr, some r)) (hne : tr ≠ []) : tr = [v] := by
  by_cases hopen : env.openOk = false
  · rw [SetTo, if_pos hopen] at h
    injection h with ha hb
    exact absurd ha.symm hne
  · rw [SetTo, if_neg hopen] at h
    injection h with ha hb
    by_cases hw : env.writeResult 0 < 0
    · rw [if_pos hw] at ha
      exact absurd ha.symm hne
    · rw [if_neg hw] at ha
      exact ha.symm

/-- FadeTo with a zero change does nothing and returns 0. -/
lemma fadeTo_zero_aux (ft : ℤ) (fs : ℚ) (env : FadeEnv) (fuel : ℕ) (x : ℤ) :
    FadeTo ft fs env fuel x 0 = ([], some 0) := by
  rw [FadeTo, if_pos rfl]

/-- Claim C8: invoking the Transition Engine with a zero delta performs
zero writes to the store and returns the NoOp outcome (return value 0),
for every starting value, configuration, environment and fuel. -/
theorem claim8_fadeTo_zero_delta_noop (ft : ℤ) (fs : ℚ) (env : FadeEnv)
    (fuel : ℕ) (x : ℤ) : FadeTo ft fs env fuel x 0 = ([], some 0) :=
  fadeTo_zero_aux ft fs env fuel x

/-- Claim C2: whenever FadeTo returns a success outcome (a nonnegative
return value) and at least one value was written, the last value written
is exactly the target current + change, regardless of step rounding. -/
theorem claim2_fadeTo_success_ends_at_target (ft : ℤ) (fs : ℚ)
    (env : FadeEnv) (fuel : ℕ) (current change : ℤ) (tr : List ℤ) (r : ℤ)
    (h : FadeTo ft fs env fuel current change = (tr, some r))
    (hr : 0 ≤ r) (hne : tr ≠ []) :
    ∃ pre, tr = pre ++ [current + change] := by
  unfold FadeTo at h
  split_ifs at h with h1 h2 h3 h4 h5 h6
  · injection h with ha hb
    exact absurd ha.symm hne
  · injection h with ha hb
    exact absurd ha.symm hne
  · exact ⟨[], by rw [SetTo_success env (current + change) tr r h hne]; rfl⟩
  · injection h with ha hb
    injection hb with hb
    omega
  · injection h with ha hb
    injection hb with hb
    omega
  · obtain ⟨htr, rv2, hp2, hrv2⟩ := finishFade_success env _ tr r h hr
    obtain ⟨pre, hpre⟩ :=
      loopPos_success env (current + change) (stepOf fs change) fuel current
        0 0 0 rv2 r hp2 hrv2
    exact ⟨pre, by rw [htr, hpre]⟩
  · obtain ⟨htr, rv2, hp2, hrv2⟩ := finishFade_success env _ tr r h hr
    obtain ⟨pre, hpre⟩ :=
      loopNeg_success env (current + change) (stepOf fs change) fuel current
        0 0 0 rv2 r hp2 hrv2
    exact ⟨pre, by rw [htr, hpre]⟩

/-- Witness for claim C2: a successful instantaneous transition from 100
by +50 writes the single value 150 = 100 + 50, its last write. -/
theorem claim2_witness : ∃ pre : List ℤ, [(150 : ℤ)] = pre ++ [100 + 50] :=
  claim2_fadeTo_success_ends_at_target 0 (1 / 10) envOK 1 100 50 [150] 4
    (by norm_num [FadeTo, SetTo, envOK]) (by norm_num) (by simp)

/-- Claim C1 (amended): provided the computed step is nonzero, the write
sequence of a positive-delta transition is strictly increasing with every
value at most the target, and the write sequence of a negative-delta
transition is strictly decreasing with every value at least the target. -/
theorem claim1_fadeTo_monotone (ft : ℤ) (fs : ℚ) (env : FadeEnv)
    (fuel : ℕ) (current change : ℤ) :
    (0 < change → 1 ≤ stepOf fs change →
      List.Pairwise (· < ·) (FadeTo ft fs env fuel current change).1 ∧
      ∀ x ∈ (FadeTo ft fs env fuel current change).1, x ≤ current + change)
    ∧ (change < 0 → stepOf fs change ≤ -1 →
      List.Pairwise (· > ·) (FadeTo ft fs env fuel current change).1 ∧
      ∀ x ∈ (FadeTo ft fs env fuel current change).1,
        current + change ≤ x) := by
  constructor
  · intro hpos hst
    unfold FadeTo
    split_ifs with h1 h2 h3 h4 h5
    · simp
    · simp
    · unfold SetTo
      split_ifs <;> simp
    · simp
    · simp
    · rw [finishFade_fst]
      refine ⟨loopPos_sorted env _ _ hst fuel current 0 0 0 (by omega), ?_⟩
      intro x hx
      exact (loopPos_bounds env _ _ hst fuel current 0 0 0 (by omega) x hx).2
  · intro hneg hst
    unfold FadeTo
    split_ifs with h1 h2 h3 h4 h5 h6
    · simp
    · simp
    · unfold SetTo
      split_ifs <;> simp
    · simp
    · simp
    · exact absurd h6 (by omega)
    · rw [finishFade_fst]
      refine ⟨loopNeg_sorted env _ _ hst fuel current 0 0 0 (by omega), ?_⟩
      intro x hx
      exact (loopNeg_bounds env _ _ hst fuel current 0 0 0 (by omega) x hx).2

/-- Counterexample to claim C1 as stated: with the configured constants,
fading from 100 by a delta of +4 computes step 0 and writes the value 100
twice in its first two iterations, a sequence that is not strictly
increasing. -/
theorem claim1_counterexample :
    (FadeTo 170 (1 / 10) envOK 2 100 4).1 = [100, 100] ∧
    ¬ List.Pairwise (· < ·) (FadeTo 170 (1 / 10) envOK 2 100 4).1 := by
  have h : (FadeTo 170 (1 / 10) envOK 2 100 4).1 = [100, 100] := by
    simp only [FadeTo, stepOf_four]
    norm_num
    decide
  refine ⟨h, ?_⟩
  rw [h]
  decide

/-- Witness for claim C1: a fade from 100 by +50 (step 5) produces a
strictly increasing write sequence bounded by the target. -/
theorem claim1_witness :
    List.Pairwise (· < ·) (FadeTo 170 (1 / 10) envOK 20 100 50).1 ∧
    ∀ x ∈ (FadeTo 170 (1 / 10) envOK 20 100 50).1, x ≤ 100 + 50 :=
  (claim1_fadeTo_monotone 170 (1 / 10) envOK 20 100 50).1 (by norm_num)
    (by rw [stepOf_fifty]; norm_num)

/-- Claim C3 (failing input): with the configured constants, a fade from
100 by the in-range delta -1 computes step round(-0.1) = 0, so the
stepping loop never reaches the target: for every amount of fuel the
loop is still running (outcome none) and every value written so far is
the unchanged starting value 100.  The code therefore does not terminate
on this input even though the delta is nonzero and the target 99 is
inside the accepted sanity range. -/
theorem claim3_fadeTo_small_delta_diverges (env : FadeEnv) (fuel : ℕ)
    (hop : env.openOk = true) (hvb : env.vbufResult = 0)
    (hw : ∀ n, 0 ≤ env.writeResult n) :
    (FadeTo 170 (1 / 10) env fuel 100 (-1)).2 = none ∧
    ∀ x ∈ (FadeTo 170 (1 / 10) env fuel 100 (-1)).1, x = 100 := by
  obtain ⟨hnone, hall⟩ := loopNeg_zero_stuck env 99 hw fuel 100 0 0 (by norm_num)
  have hrw : FadeTo 170 (1 / 10) env fuel 100 (-1) =
      finishFade env (loopNeg env 99 0 fuel 100 0 0 0) := by
    unfold FadeTo
    norm_num [hop, hvb, stepOf_neg_one]
  rw [hrw, finishFade_none env _ hnone]
  exact ⟨rfl, hall⟩

/-- Witness for claim C3 at a fully concrete environment and fuel. -/
theorem claim3_witness :
    (FadeTo 170 (1 / 10) envOK 3 100 (-1)).2 = none ∧
    ∀ x ∈ (FadeTo 170 (1 / 10) envOK 3 100 (-1)).1, x = 100 :=
  claim3_fadeTo_small_delta_diverges envOK 3 rfl rfl
    (fun n => by norm_num [envOK])

/-- Counterexample to claim C4 as stated: for the nonzero delta 4 and the
configured fade fraction 0.1 the computed step is 0, so its magnitude is
not at least 1. -/
theorem claim4_counterexample :
    stepOf (1 / 10) 4 = 0 ∧ ¬(1 ≤ |stepOf (1 / 10) 4|) := by
  refine ⟨stepOf_four, ?_⟩
  rw [stepOf_four]
  norm_num

/-- Claim C4 (amended): the computed step is sign-matched to the delta
with magnitude at least 1 provided the fade step fraction is zero or the
product of the magnitude of the delta and the fraction is at least one
half; below that threshold the rounding can return 0 (see the
counterexample). -/
theorem claim4_step_sign_magnitude (fs : ℚ) (change : ℤ) (hfs : 0 ≤ fs)
    (h : fs = 0 ∨ 1 / 2 ≤ |(change : ℚ)| * fs) :
    (0 < change → 1 ≤ stepOf fs change) ∧
    (change < 0 → stepOf fs change ≤ -1) := by
  rcases h with rfl | hb
  · constructor
    · intro hc
      have hnlt : ¬(change < 0) := by omega
      simp [stepOf, hnlt]
    · intro hc
      simp [stepOf, hc]
  · have hfs0 : fs ≠ 0 := by
      intro h0
      rw [h0, mul_zero] at hb
      norm_num at hb
    have hfspos : 0 < fs := lt_of_le_of_ne hfs (Ne.symm hfs0)
    constructor
    · intro hc
      have hcq : (0 : ℚ) < (change : ℚ) := by exact_mod_cast hc
      have habs : |(change : ℚ)| = (change : ℚ) := abs_of_pos hcq
      rw [habs] at hb
      have hq0 : (0 : ℚ) ≤ (change : ℚ) * fs := by positivity
      rw [stepOf, if_neg hfs0, roundQ, if_pos hq0]
      rw [Int.le_floor]
      push_cast
      linarith
    · intro hc
      have hcq : (change : ℚ) < 0 := by exact_mod_cast hc
      have habs : |(change : ℚ)| = -(change : ℚ) := abs_of_neg hcq
      rw [habs] at hb
      have hq0 : ¬((0 : ℚ) ≤ (change : ℚ) * fs) := by
        push_neg
        exact mul_neg_of_neg_of_pos hcq hfspos
      rw [stepOf, if_neg hfs0, roundQ, if_neg hq0]
      rw [Int.ceil_le]
      push_cast
      linarith

/-- Witness for claim C4: for delta 5 and fraction 0.1 the product is
exactly one half and the computed step is 1. -/
theorem claim4_witness : 1 ≤ stepOf (1 / 10) 5 :=
  (claim4_step_sign_magnitude (1 / 10) 5 (by norm_num)
    (Or.inr (by norm_num))).1 (by norm_num)

/-- Claim C9 (failing input): during a paced fade in which every
nanosleep call fails with a non-EINTR error (return value -1), the
engine does not abort with the pace-failure outcome -3: it keeps
stepping and completes the fade normally, returning the chars count 8 of
the final write.  The C expression assigning rval before the EINTR
comparison always stores 0, so the pace-failure branch is unreachable. -/
theorem claim9_sleep_failure_ignored :
    FadeTo 170 (1 / 10) envSleepFail 20 100 50 =
      ([105, 110, 115, 120, 125, 130, 135, 140, 145, 150], some 8) := by
  simp only [FadeTo, stepOf_fifty]
  norm_num
  decide

/-- Claim C5 (failing input): a toggle-off from any positive brightness
(here with the cache save succeeding) computes the effective change
-brightness, but FadeTo rejects the resulting target 0 at its
target-below-1 sanity guard and returns 0 without writing anything, so
the value 0 is never written to the brightness store. -/
theorem claim5_toggle_off_never_writes (env : FadeEnv) (fuel : ℕ)
    (b maxB cr sr : ℤ) (hb : 0 < b) (hs : 0 < sr) :
    runToggle env fuel b maxB cr sr false = (-b, ([], some 0)) := by
  have hb0 : ¬(b = 0) := by omega
  have hnb : -b ≠ 0 := by omega
  have hclamp : clampBrightness b maxB lower_limit (-b) true = 0 := by
    unfold clampBrightness lower_limit
    norm_num
  unfold runToggle
  simp only [if_neg hb0, if_pos hs, hclamp]
  have h0b : (0 : ℤ) - b = -b := by ring
  rw [h0b]
  rw [if_pos (Or.inl hnb)]
  have hf : FadeTo fade_time fade_step env fuel b (-b) = ([], some 0) := by
    unfold FadeTo
    rw [if_neg hnb, if_pos (by omega : b + -b < 1 ∨ 852 < b + -b)]
  rw [hf]

/-- Witness for claim C5 at a fully concrete input. -/
theorem claim5_witness :
    runToggle envOK 1 100 852 0 1 false = (-100, ([], some 0)) :=
  claim5_toggle_off_never_writes envOK 1 100 852 0 1 (by norm_num)
    (by norm_num)

/-- Counterexample to claim C6 as stated: with current 3, max 5, a lower
limit of 10 (which exceeds the max) and delta 0, the clamp returns 10,
which lies outside [0, max]. -/
theorem claim6_counterexample :
    clampBrightness 3 5 10 0 false = 10 ∧
    ¬(clampBrightness 3 5 10 0 false ≤ 5) := by
  constructor <;> norm_num [clampBrightness]

/-- Claim C6 (amended): under the additional hypothesis that the lower
limit does not exceed the max, the clamp is total: the result is in
[0, max], at least the lower limit when not toggling off, and exactly 0
on a toggle-off whose raw target falls below the lower limit. -/
theorem claim6_clamp_total (current maxB lower delta : ℤ) (tog : Bool)
    (h0 : 0 ≤ current) (h1 : current ≤ maxB) (h2 : 0 ≤ lower)
    (h3 : lower ≤ maxB) :
    0 ≤ clampBrightness current maxB lower delta tog ∧
    clampBrightness current maxB lower delta tog ≤ maxB ∧
    (tog = false → lower ≤ clampBrightness current maxB lower delta tog) ∧
    (tog = true → current + delta < lower →
      clampBrightness current maxB lower delta tog = 0) := by
  unfold clampBrightness
  cases tog
  · simp only [Bool.false_eq_true, if_false]
    split_ifs with ha hc
    · exact ⟨by omega, by omega, fun _ => by omega, fun h => by simp at h⟩
    · exact ⟨by omega, by omega, fun _ => by omega, fun h => by simp at h⟩
    · exact ⟨by omega, by omega, fun _ => by omega, fun h => by simp at h⟩
  · simp only [if_true]
    split_ifs with ha hc
    · exact ⟨by omega, by omega, fun h => by simp at h, fun _ _ => rfl⟩
    · exact ⟨by omega, by omega, fun h => by simp at h, fun _ hlt => by omega⟩
    · exact ⟨by omega, by omega, fun h => by simp at h, fun _ hlt => by omega⟩

/-- Witness for claim C6 at a concrete in-range input. -/
theorem claim6_witness :
    0 ≤ clampBrightness 3 10 1 2 false ∧
    clampBrightness 3 10 1 2 false ≤ 10 ∧
    (false = false → 1 ≤ clampBrightness 3 10 1 2 false) ∧
    (false = true → (3 : ℤ) + 2 < 1 → clampBrightness 3 10 1 2 false = 0) :=
  claim6_clamp_total 3 10 1 2 false (by norm_num) (by norm_num)
    (by norm_num) (by norm_num)

/-- Claim C7: when fading is disabled by the configuration (interval
below 1 or above 999, or fraction below 0 or above one half), a
transition with a nonzero delta whose target is inside the sanity range
performs exactly one write, whose value is the target, provided the
store opens and the write succeeds. -/
theorem claim7_disabled_single_write (ft : ℤ) (fs : ℚ) (env : FadeEnv)
    (fuel : ℕ) (current change : ℤ) (hch : change ≠ 0)
    (hlo : 1 ≤ current + change) (hhi : current + change ≤ 852)
    (hdis : ft < 1 ∨ 999 < ft ∨ fs < 0 ∨ 1 / 2 < fs)
    (hop : env.openOk = true) (hw : 0 ≤ env.writeResult 0) :
    (FadeTo ft fs env fuel current change).1 = [current + change] := by
  unfold FadeTo
  rw [if_neg hch,
    if_neg (by omega : ¬(current + change < 1 ∨ 852 < current + change)),
    if_pos hdis]
  unfold SetTo
  rw [if_neg (by simp [hop])]
  simp only []
  rw [if_neg (by omega : ¬(env.writeResult 0 < 0))]

/-- Witness for claim C7: with the fade interval set to 0 the transition
from 100 by +50 performs the single write 150. -/
theorem claim7_witness : (FadeTo 0 (1 / 10) envOK 1 100 50).1 = [100 + 50] :=
  claim7_disabled_single_write 0 (1 / 10) envOK 1 100 50 (by norm_num)
    (by norm_num) (by norm_num) (Or.inl (by norm_num)) rfl
    (by norm_num [envOK])

/-- Claim C10: when the toggle-off save to the cache fails (non-positive
save result), the computed change stays 0 and no write to the brightness
store is performed: the toggle run returns change 0 with an empty write
trace, for any verbosity. -/
theorem claim10_save_fail_aborts (env : FadeEnv) (fuel : ℕ)
    (b maxB cr sr : ℤ) (v : Bool) (hb : 0 < b) (hbm : b ≤ maxB)
    (hs : sr ≤ 0) :
    runToggle env fuel b maxB cr sr v = (0, ([], some 0)) := by
  have hb0 : ¬(b = 0) := by omega
  have hsr : ¬(0 < sr) := by omega
  have hclamp : clampBrightness b maxB lower_limit 0 false = b := by
    unfold clampBrightness lower_limit
    rw [if_neg (by omega : ¬(b + 0 < 1)), if_neg (by omega : ¬(maxB < b + 0))]
    omega
  unfold runToggle
  simp only [if_neg hb0, if_neg hsr, hclamp]
  have hbb : b - b = 0 := by ring
  rw [hbb]
  cases v
  · norm_num
  · norm_num
    exact fadeTo_zero_aux fade_time fade_step env fuel b

/-- Witness for claim C10 at a fully concrete input. -/
theorem claim10_witness :
    runToggle envOK 1 100 852 0 0 false = (0, ([], some 0)) :=
  claim10_save_fail_aborts envOK 1 100 852 0 0 false (by norm_num)
    (by norm_num) (by norm_num)
